import Mathlib

/-!
# EDOPro-GoHD: the download engine, its completion store and the filter step

A shallow embedding of `config.go`, `cache.go`, `downloader.go` and the filter
loop of `main.go`.

* Go strings are Lean `String`s (text files are taken to hold valid UTF-8).
* Go `int` identifiers are `Int`; the `int32` counters are `Int`s updated with
  an explicit two's-complement wrap-around.
* The operating system and the network are an explicit `World` (picture files,
  tracker files, directories, the log of GET requests) together with an `Env`
  that fixes, for one item, how each fallible call answers.
* The admission gate (buffered channel used as a semaphore) is a small-step
  machine over `Gate`.
-/

namespace GoHD

/-! ## Strings and the standard-library calls used by the program -/

/-- Decimal rendering of an integer: `strconv.Itoa` and the `%d` verb. -/
def Itoa (i : Int) : String := toString i

/-- Go `unicode.IsSpace`. -/
def isSpace (r : Char) : Bool :=
  r.toNat = 0x09 || r.toNat = 0x0A || r.toNat = 0x0B || r.toNat = 0x0C || r.toNat = 0x0D ||
  r.toNat = 0x20 || r.toNat = 0x85 || r.toNat = 0xA0 || r.toNat = 0x1680 ||
  (0x2000 ≤ r.toNat && r.toNat ≤ 0x200A) || r.toNat = 0x2028 || r.toNat = 0x2029 ||
  r.toNat = 0x202F || r.toNat = 0x205F || r.toNat = 0x3000

/-- Go `strings.TrimSpace`: leading and trailing white space removed. -/
def TrimSpace (s : String) : String :=
  ⟨(s.data.dropWhile isSpace).rdropWhile isSpace⟩

/-- Size in bytes of the UTF-8 encoding of a run of characters. -/
def byteLen (data : List Char) : Nat := (data.map Char.utf8Size).sum

/-- Go `bufio.MaxScanTokenSize`, the largest buffer a `bufio.Scanner` allocates. -/
def MaxScanTokenSize : Nat := 64 * 1024

/-- The helper `dropCR` of `bufio.ScanLines`: one trailing carriage return is dropped. -/
def dropCR (data : List Char) : List Char :=
  if data.getLast? = some '\r' then data.dropLast else data

/-- The tokens a `bufio.Scanner` with the default `ScanLines` split yields on
the unread input `data` when `line` is the part of the current line already
buffered. A line of `MaxScanTokenSize` bytes or more does not fit the buffer:
the scanner stops there (`ErrTooLong`) and yields nothing further. A final
line without newline is yielded when it is not empty. -/
def scanTokens : List Char → List Char → List (List Char)
  | [], line =>
    if line = [] then []
    else if MaxScanTokenSize ≤ byteLen line then []
    else [dropCR line]
  | c :: rest, line =>
    if c = '\n' then
      if MaxScanTokenSize ≤ byteLen line then []
      else dropCR line :: scanTokens rest []
    else scanTokens rest (line ++ [c])

/-- Successive values of `scanner.Text()` over a whole file content. -/
def scanLines (content : String) : List String :=
  (scanTokens content.data []).map String.mk

/-! ## config.go -/

def ImagesBaseURL : String := "https://images.ygoprodeck.com/images/cards"
def CardCachePath : String := "./hd_cards_downloader_tracker.tmp"
def FieldCachePath : String := "./hd_fields_downloader_tracker.tmp"
def PicsDir : String := "./pics"
def FieldPicsDir : String := "./pics/field"
def DownloadConcurrency : Nat := 100

/-- The map literal `idConversionMap`. -/
def idConversionMap : List (Int × Int) := [(904186, 31533705)]

def convertID (cardID : Int) : Int :=
  match idConversionMap.lookup cardID with
  | some converted => converted
  | none => cardID

structure DownloadItem where
  ID : Int
  IsField : Bool
deriving DecidableEq, Repr

/-! ## The world the program acts on -/

/-- The file `filepath.Join(dir, name)`: the entry `name` of the directory `dir`. -/
structure FilePath where
  dir : String
  name : String
deriving DecidableEq, Repr

/-- Files, directories and network traffic.
`pics p` and `trackers p` are the content of the file when it exists. -/
structure World where
  pics : FilePath → Option String
  trackers : String → Option String
  dirs : List String
  requests : List String

/-- Function update for the two file tables. -/
def setFile {κ : Type} [DecidableEq κ] (files : κ → Option String) (path : κ)
    (content : Option String) : κ → Option String :=
  fun p => if p = path then content else files p

/-- What `client.Do` answers. -/
inductive HTTPResult where
  | timeout
  | failure
  | response (StatusCode : Int) (Body : String)
deriving DecidableEq, Repr

/-- How the fallible calls made for one item answer.
A `true` flag means the call returns a nil error. For `ioCopy` and
`appendWrite`, `none` means the whole data was written and `some n` that the
call failed after `n` characters had reached the file. -/
structure Env where
  mkdirAll : Bool
  newRequest : Bool
  clientDo : HTTPResult
  osCreate : Bool
  ioCopy : Option Nat
  osRemove : Bool
  appendOpen : Bool
  appendWrite : Option Nat

/-- How the calls of one `loadSetFromFile` answer: `osOpen` is `true` when
`os.Open` succeeds; `read` is `none` when the file is read to its end and
`some n` when reading fails after `n` characters. -/
structure LoadEnv where
  osOpen : Bool
  read : Option Nat

/-! ## cache.go -/

/-- The Go type `map[string]struct{}`, kept as the list of its keys. -/
abbrev IDSet := List String

def loadSetFromFile (env : LoadEnv) (filePath : String) (targetSet : IDSet) (w : World) : IDSet :=
  match w.trackers filePath with
  | none => targetSet
  | some content =>
    if env.osOpen then
      let readable : String :=
        match env.read with
        | none => content
        | some n => ⟨content.data.take n⟩
      (scanLines readable).foldl
        (fun set text =>
          let id := TrimSpace text
          if id ≠ "" then set.insert id else set)
        targetSet
    else targetSet

def loadCache (cardEnv fieldEnv : LoadEnv) (w : World) : IDSet × IDSet :=
  (loadSetFromFile cardEnv CardCachePath [] w, loadSetFromFile fieldEnv FieldCachePath [] w)

/-- The function `appendIDToCacheFile`; the result is the new world and
whether the returned error is nil. The file is opened with
`O_APPEND|O_WRONLY` and without `O_CREATE`, so a missing file is an error. -/
def appendIDToCacheFile (env : Env) (filePath : String) (idStr : String) (w : World) :
    World × Bool :=
  match w.trackers filePath with
  | none => (w, false)
  | some content =>
    if env.appendOpen then
      match env.appendWrite with
      | none =>
        ({ w with trackers := setFile w.trackers filePath (some (content ++ (idStr ++ "\n"))) },
          true)
      | some n =>
        ({ w with trackers :=
            setFile w.trackers filePath (some (content ++ ⟨(idStr ++ "\n").data.take n⟩)) },
          false)
    else (w, false)

/-! ## downloader.go -/

/-- The non-nil values of the `error` returned by `downloadSingleImage`:
a `*statusCodeError`, or an error made by `fmt.Errorf`. -/
inductive DlError where
  | statusCodeError (StatusCode : Int) (URL : String)
  | wrapError (msg : String)
deriving DecidableEq, Repr

def downloadSingleImage (env : Env) (item : DownloadItem) (w : World) :
    World × Option DlError :=
  let imgURL := if item.IsField then ImagesBaseURL ++ "_cropped" else ImagesBaseURL
  let destDir := if item.IsField then FieldPicsDir else PicsDir
  let imgURL := imgURL ++ ("/" ++ Itoa item.ID ++ ".jpg")
  let convertedID := convertID item.ID
  let fileName := Itoa convertedID ++ ".jpg"
  let filePath : FilePath := ⟨destDir, fileName⟩
  if env.mkdirAll then
    let w := { w with dirs := w.dirs.insert destDir }
    if env.newRequest then
      let w := { w with requests := w.requests ++ [imgURL] }
      match env.clientDo with
      | .timeout => (w, some (.wrapError ("http request timeout for " ++ imgURL)))
      | .failure => (w, some (.wrapError ("http request failed for " ++ imgURL)))
      | .response StatusCode Body =>
        if StatusCode ≠ 200 then (w, some (.statusCodeError StatusCode imgURL))
        else if env.osCreate then
          let w := { w with pics := setFile w.pics filePath (some "") }
          match env.ioCopy with
          | none => ({ w with pics := setFile w.pics filePath (some Body) }, none)
          | some n =>
            let w := { w with pics := setFile w.pics filePath (some ⟨Body.data.take n⟩) }
            let w := if env.osRemove then { w with pics := setFile w.pics filePath none } else w
            (w, some (.wrapError ("failed to write image data to " ++ fileName)))
        else (w, some (.wrapError ("failed to create output file " ++ fileName)))
    else (w, some (.wrapError ("failed to create request for " ++ imgURL)))
  else (w, some (.wrapError ("failed to create directory " ++ destDir)))

/-- Two's-complement wrap-around of an `int32`. -/
def wrapInt32 (v : Int) : Int := (v + 2 ^ 31) % 2 ^ 32 - 2 ^ 31

/-- Go `atomic.AddInt32`. -/
def AddInt32 (addr : Int) (delta : Int) : Int := wrapInt32 (addr + delta)

/-- What one worker goroutine did: the item, the error of `downloadSingleImage`
and whether `appendIDToCacheFile` was called and returned nil. -/
structure Report where
  item : DownloadItem
  err : Option DlError
  appended : Bool
deriving DecidableEq, Repr

/-- The variables shared by the goroutines of one run, the world, and the
reports of the goroutines that have finished (oldest first). -/
structure Run where
  world : World
  httpErrorCount : Int
  otherErrorCount : Int
  processedCount : Int
  successfulDownloadCount : Int
  reports : List Report

/-- The goroutine took the `else` branch of `if err != nil`. -/
def Report.isSuccess (p : Report) : Bool :=
  match p.err with
  | none => true
  | some _ => false

/-- The goroutine found a `*statusCodeError`. -/
def Report.isHTTPFailure (p : Report) : Bool :=
  match p.err with
  | some (.statusCodeError _ _) => true
  | _ => false

/-- The goroutine found an error that is not a `*statusCodeError`. -/
def Report.isOtherFailure (p : Report) : Bool :=
  match p.err with
  | some (.wrapError _) => true
  | _ => false

/-- The body of the goroutine started for `item`. -/
def worker (env : Env) (item : DownloadItem) (r : Run) : Run :=
  match downloadSingleImage env item r.world with
  | (w, err) =>
    let r := { r with world := w, processedCount := AddInt32 r.processedCount 1 }
    match err with
    | some (.statusCodeError c u) =>
      { r with httpErrorCount := AddInt32 r.httpErrorCount 1
               reports := r.reports ++ [⟨item, some (.statusCodeError c u), false⟩] }
    | some (.wrapError m) =>
      { r with otherErrorCount := AddInt32 r.otherErrorCount 1
               reports := r.reports ++ [⟨item, some (.wrapError m), false⟩] }
    | none =>
      let idStr := Itoa item.ID
      let cachePath := if item.IsField then FieldCachePath else CardCachePath
      match appendIDToCacheFile env cachePath idStr w with
      | (w, ok) =>
        { r with world := w
                 successfulDownloadCount := AddInt32 r.successfulDownloadCount 1
                 reports := r.reports ++ [⟨item, none, ok⟩] }

/-- The dispatch loop with each goroutine run to completion before the next
one is started; `env 0` answers for the first item of the list. -/
def dispatch (env : Nat → Env) : List DownloadItem → Run → Run
  | [], r => r
  | item :: rest, r => dispatch (fun i => env (i + 1)) rest (worker (env 0) item r)

/-- The function `downloadImagesConcurrently`: the returned `int` and the
final state of the run. -/
def downloadImagesConcurrently (env : Nat → Env) (itemsToDownload : List DownloadItem)
    (w : World) : Int × Run :=
  let start : Run := ⟨w, 0, 0, 0, 0, []⟩
  let totalItems := itemsToDownload.length
  if totalItems = 0 then (0, start)
  else
    let r := dispatch env itemsToDownload start
    (r.httpErrorCount, r)

/-! ## The admission gate of `downloadImagesConcurrently` -/

/-- The dispatch loop and its goroutines, as far as the channel `semaphore`
is concerned, for a run over `total` items. -/
structure Gate where
  total : Nat
  /-- Index of the item the `for` loop is at. -/
  next : Nat
  /-- Number of values buffered in the channel `semaphore`. -/
  tokens : Nat
  /-- The loop has sent on `semaphore` for item `next` and has not reached `go` yet. -/
  holding : Bool
  /-- Goroutines started whose call of `downloadSingleImage` has not returned. -/
  inFlight : List Nat
  /-- Goroutines whose call has returned and whose deferred receive has not run. -/
  finishing : List Nat
deriving DecidableEq, Repr

/-- The atomic steps of the loop and of the goroutines. -/
inductive GateStep where
  /-- The send `semaphore <- struct{}{}` of the loop completes. -/
  | acquire
  /-- The statement `go func(item DownloadItem) {...}(item)` starts goroutine `next`. -/
  | spawn
  /-- In goroutine `i` the call of `downloadSingleImage` returns, with or without error. -/
  | fetchDone (i : Nat)
  /-- The deferred `<-semaphore` of goroutine `i` runs. -/
  | release (i : Nat)
deriving DecidableEq, Repr

/-- The gate when the loop is entered: `make(chan struct{}, DownloadConcurrency)` is empty. -/
def Gate.start (total : Nat) : Gate := ⟨total, 0, 0, false, [], []⟩

/-- One step; `none` when the step is not enabled (a send on a full channel
blocks, a receive on an empty one blocks). -/
def Gate.step (g : Gate) : GateStep → Option Gate
  | .acquire =>
    if g.next < g.total ∧ g.holding = false ∧ g.tokens < DownloadConcurrency then
      some { g with tokens := g.tokens + 1, holding := true }
    else none
  | .spawn =>
    if g.holding = true then
      some { g with holding := false, inFlight := g.next :: g.inFlight, next := g.next + 1 }
    else none
  | .fetchDone i =>
    if i ∈ g.inFlight then
      some { g with inFlight := g.inFlight.erase i, finishing := i :: g.finishing }
    else none
  | .release i =>
    if i ∈ g.finishing ∧ 0 < g.tokens then
      some { g with finishing := g.finishing.erase i, tokens := g.tokens - 1 }
    else none

/-- A sequence of steps from `g`. -/
def Gate.exec (g : Gate) : List GateStep → Option Gate
  | [] => some g
  | e :: es =>
    match g.step e with
    | some g1 => g1.exec es
    | none => none

/-! ## main.go: candidates and the filter step -/

/-- The slice `potentialDownloads` built from the two identifier lists. -/
def potentialDownloads (allCardIDs allFieldIDs : List Int) : List DownloadItem :=
  ((allCardIDs.filter (fun id => id ≠ 0)).map (fun id => (⟨id, false⟩ : DownloadItem))) ++
  ((allFieldIDs.filter (fun id => id ≠ 0)).map (fun id => (⟨id, true⟩ : DownloadItem)))

/-- The slice `itemsToDownload`: the candidates not found in their variant's set. -/
def itemsToDownload (cachedCardIDs cachedFieldIDs : IDSet) (potential : List DownloadItem) :
    List DownloadItem :=
  potential.filter (fun item =>
    let idStr := Itoa item.ID
    let found := if item.IsField then decide (idStr ∈ cachedFieldIDs)
                 else decide (idStr ∈ cachedCardIDs)
    !found)

/-- A working directory right after `setupEnvironment` ran on an empty one:
both picture directories exist and are empty, both tracker files exist and are
empty, no request has been sent. -/
def freshWorld : World where
  pics := fun _ => none
  trackers := fun p => if p = CardCachePath ∨ p = FieldCachePath then some "" else none
  dirs := [PicsDir, FieldPicsDir]
  requests := []

/-- An environment in which every local call succeeds and the server answers
with the given status and body. -/
def respEnv (code : Int) (body : String) : Env :=
  ⟨true, true, .response code body, true, none, true, true, none⟩

/-- An environment in which every call succeeds and the server answers `200`
with the given body. -/
def okEnv (body : String) : Env := respEnv 200 body

/-- An environment in which every local call succeeds and the server answers
with the given status and an empty body. -/
def statusEnv (code : Int) : Env := respEnv code ""

/-- An environment in which the server answers `200` with the given body
and the copy to the destination file fails after `n` characters;
`removed` tells whether the following `os.Remove` succeeds. -/
def copyFailEnv (body : String) (n : Nat) (removed : Bool) : Env :=
  ⟨true, true, .response 200 body, true, some n, removed, true, none⟩

/-- The URL of an item as the specification writes it. -/
def imageURL (item : DownloadItem) : String :=
  ImagesBaseURL ++ (if item.IsField then "_cropped/" else "/") ++ Itoa item.ID ++ ".jpg"

/-- The destination file of an item as the specification writes it. -/
def destination (item : DownloadItem) : FilePath :=
  ⟨if item.IsField then FieldPicsDir else PicsDir, Itoa (convertID item.ID) ++ ".jpg"⟩

/-- The tracker file of an item's variant. -/
def trackerOf (item : DownloadItem) : String :=
  if item.IsField then FieldCachePath else CardCachePath

/-- The items with identifiers `1, 2, ..., n`, all plain. -/
def plainItems (n : Nat) : List DownloadItem :=
  (List.range n).map (fun (i : Nat) => (⟨Int.ofNat i + 1, false⟩ : DownloadItem))

/-- The scenario of the specification: identifier 10 is served, identifier 20 is not found. -/
def scenarioItems : List DownloadItem := [⟨10, false⟩, ⟨20, false⟩]

/-- The answers of the scenario: `200` with a body for the first item, `404` for the second. -/
def scenarioEnv : Nat → Env := fun i => if i = 0 then okEnv "JFIF" else statusEnv 404

/-! ## Orders of completion -/

/-- The four shared counters: processed, successful, HTTP errors, other errors. -/
def Run.counters (r : Run) : Int × Int × Int × Int :=
  (r.processedCount, r.successfulDownloadCount, r.httpErrorCount, r.otherErrorCount)

/-- Goroutines, each with the answers it gets, completed one after the other
in the order of the list. -/
def complete : List (Env × DownloadItem) → Run → Run
  | [], r => r
  | job :: rest, r => complete rest (worker job.1 job.2 r)

/-- The goroutines of the dispatch loop in dispatch order. -/
def jobs (env : Nat → Env) : List DownloadItem → List (Env × DownloadItem)
  | [] => []
  | item :: rest => (env 0, item) :: jobs (fun i => env (i + 1)) rest

/-- What one goroutine adds to the four counters. -/
def tally (c : Int × Int × Int × Int) (job : Env × DownloadItem) : Int × Int × Int × Int :=
  match (downloadSingleImage job.1 job.2 freshWorld).2 with
  | none => (AddInt32 c.1 1, AddInt32 c.2.1 1, c.2.2.1, c.2.2.2)
  | some (.statusCodeError _ _) => (AddInt32 c.1 1, c.2.1, AddInt32 c.2.2.1 1, c.2.2.2)
  | some (.wrapError _) => (AddInt32 c.1 1, c.2.1, c.2.2.1, AddInt32 c.2.2.2 1)

/-! ## Vocabulary of the statements about tracker files -/

/-- The values of a Go `int` on a 64-bit platform. -/
def isGoInt (i : Int) : Prop := -2 ^ 63 ≤ i ∧ i < 2 ^ 63

/-- The characters of a decimal rendering. -/
def decimalChars : List Char := "-0123456789".data

/-- A text made of the given lines, each followed by a newline. -/
def joinLines (lines : List String) : String :=
  lines.foldr (fun l acc => l ++ "\n" ++ acc) ""

/-- A line a `bufio.Scanner` can hold: no newline inside and fewer than
`MaxScanTokenSize` bytes. -/
def fitsScanner (l : String) : Prop :=
  '\n' ∉ l.data ∧ byteLen l.data < MaxScanTokenSize

/-- A working directory whose two tracker files hold the given texts and whose
picture directories are empty. -/
def trackerWorld (card field : String) : World where
  pics := fun _ => none
  trackers := fun p =>
    if p = CardCachePath then some card else if p = FieldCachePath then some field else none
  dirs := [PicsDir, FieldPicsDir]
  requests := []

/-- A load in which `os.Open` succeeds and the file is read to its end. -/
def okLoad : LoadEnv := ⟨true, none⟩

/-- An environment in which the download succeeds and the tracker file cannot
be opened for appending. -/
def appendFailEnv (body : String) : Env :=
  ⟨true, true, .response 200 body, true, none, true, false, none⟩

/-- The part of `main` from `loadCache` to the call of the engine: the items
found to download and the state of the run when the engine has returned. -/
def mainDownload (cardLoad fieldLoad : LoadEnv) (env : Nat → Env)
    (allCardIDs allFieldIDs : List Int) (w : World) : List DownloadItem × Run :=
  let cached := loadCache cardLoad fieldLoad w
  let items := itemsToDownload cached.1 cached.2 (potentialDownloads allCardIDs allFieldIDs)
  let totalToAttempt := items.length
  if totalToAttempt > 0 then (items, (downloadImagesConcurrently env items w).2)
  else (items, ⟨w, 0, 0, 0, 0, []⟩)

/-- The identifier strings the reports say were appended to the tracker `path`. -/
def appendedTo (path : String) (reports : List Report) : List String :=
  (reports.filter (fun q => q.appended && decide (trackerOf q.item = path))).map
    (fun q => Itoa q.item.ID)

/-- Two distinct plain identifiers that `convertID` sends to the same file name. -/
def clashItems : List DownloadItem := [⟨904186, false⟩, ⟨31533705, false⟩]

/-- The first download succeeds; the second gets `200` and its copy fails
after four characters, the file being removed afterwards. -/
def clashEnv : Nat → Env :=
  fun i => if i = 0 then okEnv "JFIF" else copyFailEnv "JFIFDATA" 4 true

/-- Every goroutine that has started and not yet released holds one value of
the channel, as does the loop between its send and its `go`; the channel never
holds more than its capacity. -/
def Gate.balanced (g : Gate) : Prop :=
  g.inFlight.length + g.finishing.length + (if g.holding = true then 1 else 0) = g.tokens ∧
  g.tokens ≤ DownloadConcurrency

/-- A run over three items: two dispatched, the first completed and released,
the third dispatched. -/
def sampleSteps : List GateStep :=
  [.acquire, .spawn, .acquire, .spawn, .fetchDone 0, .release 0, .acquire, .spawn]

/-! ## Arithmetic of the `int32` counters -/

theorem wrapInt32_of_range (v : Int) (h0 : 0 ≤ v) (h1 : v < 2 ^ 31) : wrapInt32 v = v := by
  unfold wrapInt32
  omega

theorem wrapInt32_add_wrap (v d : Int) : wrapInt32 (wrapInt32 v + d) = wrapInt32 (v + d) := by
  unfold wrapInt32
  omega

theorem AddInt32_ne (v : Int) : AddInt32 v 1 ≠ v := by
  unfold AddInt32 wrapInt32
  omega

/-! ## The worker and the dispatch loop -/

/-- The error returned by `downloadSingleImage` does not depend on the world. -/
theorem downloadSingleImage_err (env : Env) (item : DownloadItem) (w w1 : World) :
    (downloadSingleImage env item w).2 = (downloadSingleImage env item w1).2 := by
  unfold downloadSingleImage
  simp only
  split_ifs <;> first | rfl | (split <;> first | rfl | (split_ifs <;> first | rfl | (split <;> rfl)))

/-- What one goroutine does to the shared variables and to the reports. -/
theorem worker_spec (env : Env) (item : DownloadItem) (r : Run) :
    ∃ p : Report,
      (worker env item r).reports = r.reports ++ [p] ∧ p.item = item ∧
      p.err = (downloadSingleImage env item r.world).2 ∧
      (worker env item r).processedCount = AddInt32 r.processedCount 1 ∧
      (worker env item r).successfulDownloadCount =
        (if p.isSuccess then AddInt32 r.successfulDownloadCount 1
         else r.successfulDownloadCount) ∧
      (worker env item r).httpErrorCount =
        (if p.isHTTPFailure then AddInt32 r.httpErrorCount 1 else r.httpErrorCount) ∧
      (worker env item r).otherErrorCount =
        (if p.isOtherFailure then AddInt32 r.otherErrorCount 1 else r.otherErrorCount) := by
  unfold worker
  rcases hd : downloadSingleImage env item r.world with ⟨w, err⟩
  rcases err with _ | ⟨c, u⟩ | m
  · exact ⟨_, rfl, rfl, rfl, rfl, rfl, rfl, rfl⟩
  · exact ⟨_, rfl, rfl, rfl, rfl, rfl, rfl, rfl⟩
  · exact ⟨_, rfl, rfl, rfl, rfl, rfl, rfl, rfl⟩

/-- Every report falls in exactly one of the three classes. -/
theorem report_classes (p : Report) :
    (p.isSuccess = true ∧ p.isHTTPFailure = false ∧ p.isOtherFailure = false) ∨
    (p.isSuccess = false ∧ p.isHTTPFailure = true ∧ p.isOtherFailure = false) ∨
    (p.isSuccess = false ∧ p.isHTTPFailure = false ∧ p.isOtherFailure = true) := by
  rcases p with ⟨item, err, a⟩
  rcases err with _ | ⟨c, u⟩ | m <;> simp [Report.isSuccess, Report.isHTTPFailure, Report.isOtherFailure]

theorem countP_classes (l : List Report) :
    l.countP Report.isSuccess + l.countP Report.isHTTPFailure + l.countP Report.isOtherFailure
      = l.length := by
  induction l with
  | nil => rfl
  | cons p l ih =>
    simp only [List.countP_cons, List.length_cons]
    rcases report_classes p with ⟨h1, h2, h3⟩ | ⟨h1, h2, h3⟩ | ⟨h1, h2, h3⟩ <;>
      simp [h1, h2, h3] <;> omega

/-- The dispatch loop: one report per item, in order, and each counter is the
wrapped number of reports of its class added to its initial value. -/
theorem dispatch_spec (items : List DownloadItem) :
    ∀ (env : Nat → Env) (r : Run) (s h o n : Int),
      r.successfulDownloadCount = wrapInt32 s → r.httpErrorCount = wrapInt32 h →
      r.otherErrorCount = wrapInt32 o → r.processedCount = wrapInt32 n →
      ∃ new : List Report,
        (dispatch env items r).reports = r.reports ++ new ∧
        new.map Report.item = items ∧
        (∀ q ∈ new, ∃ i w1, q.err = (downloadSingleImage (env i) q.item w1).2) ∧
        (dispatch env items r).successfulDownloadCount
          = wrapInt32 (s + (new.countP Report.isSuccess : Nat)) ∧
        (dispatch env items r).httpErrorCount
          = wrapInt32 (h + (new.countP Report.isHTTPFailure : Nat)) ∧
        (dispatch env items r).otherErrorCount
          = wrapInt32 (o + (new.countP Report.isOtherFailure : Nat)) ∧
        (dispatch env items r).processedCount = wrapInt32 (n + (items.length : Nat)) := by
  induction items with
  | nil =>
    intro env r s h o n hs hh ho hn
    exact ⟨[], by simp [dispatch], rfl, by simp, by simpa [dispatch] using hs,
      by simpa [dispatch] using hh, by simpa [dispatch] using ho, by simpa [dispatch] using hn⟩
  | cons item rest ih =>
    intro env r s h o n hs hh ho hn
    obtain ⟨p, hrep, hitem, herr, hproc, hsucc, hhttp, hother⟩ := worker_spec (env 0) item r
    have hs1 : (worker (env 0) item r).successfulDownloadCount
        = wrapInt32 (s + (if p.isSuccess then 1 else 0)) := by
      rw [hsucc, hs]; split_ifs
      · exact wrapInt32_add_wrap s 1
      · simp
    have hh1 : (worker (env 0) item r).httpErrorCount
        = wrapInt32 (h + (if p.isHTTPFailure then 1 else 0)) := by
      rw [hhttp, hh]; split_ifs
      · exact wrapInt32_add_wrap h 1
      · simp
    have ho1 : (worker (env 0) item r).otherErrorCount
        = wrapInt32 (o + (if p.isOtherFailure then 1 else 0)) := by
      rw [hother, ho]; split_ifs
      · exact wrapInt32_add_wrap o 1
      · simp
    have hn1 : (worker (env 0) item r).processedCount = wrapInt32 (n + 1) := by
      rw [hproc, hn]; exact wrapInt32_add_wrap n 1
    obtain ⟨new, hr, hmap, hfrom, hs2, hh2, ho2, hn2⟩ :=
      ih (fun i => env (i + 1)) (worker (env 0) item r) _ _ _ _ hs1 hh1 ho1 hn1
    refine ⟨p :: new, ?_, ?_, ?_, ?_, ?_, ?_, ?_⟩
    · simp only [dispatch]; rw [hr, hrep]; simp
    · simp [hitem, hmap]
    · intro q hq
      rcases List.mem_cons.mp hq with rfl | hq
      · exact ⟨0, r.world, by rw [herr, hitem]⟩
      · obtain ⟨i, w1, hi⟩ := hfrom q hq
        exact ⟨i + 1, w1, hi⟩
    · simp only [dispatch]; rw [hs2, List.countP_cons]
      congr 1; split_ifs <;> simp_all; omega
    · simp only [dispatch]; rw [hh2, List.countP_cons]
      congr 1; split_ifs <;> simp_all; omega
    · simp only [dispatch]; rw [ho2, List.countP_cons]
      congr 1; split_ifs <;> simp_all; omega
    · simp only [dispatch]; rw [hn2]
      congr 1; simp; omega

/-- The whole run: reports and counters, for every list of items. -/
theorem run_spec (env : Nat → Env) (items : List DownloadItem) (w : World) :
    ((downloadImagesConcurrently env items w).2.reports.map Report.item = items) ∧
    (∀ q ∈ (downloadImagesConcurrently env items w).2.reports,
      ∃ i w1, q.err = (downloadSingleImage (env i) q.item w1).2) ∧
    (downloadImagesConcurrently env items w).1 =
      wrapInt32 ((downloadImagesConcurrently env items w).2.reports.countP
        Report.isHTTPFailure : Nat) ∧
    (downloadImagesConcurrently env items w).2.successfulDownloadCount =
      wrapInt32 ((downloadImagesConcurrently env items w).2.reports.countP
        Report.isSuccess : Nat) ∧
    (downloadImagesConcurrently env items w).2.httpErrorCount =
      wrapInt32 ((downloadImagesConcurrently env items w).2.reports.countP
        Report.isHTTPFailure : Nat) ∧
    (downloadImagesConcurrently env items w).2.otherErrorCount =
      wrapInt32 ((downloadImagesConcurrently env items w).2.reports.countP
        Report.isOtherFailure : Nat) ∧
    (downloadImagesConcurrently env items w).2.processedCount =
      wrapInt32 (items.length : Nat) := by
  have w0 : wrapInt32 0 = 0 := by unfold wrapInt32; omega
  by_cases hz : items.length = 0
  · have hnil : items = [] := List.length_eq_zero.mp hz
    subst hnil
    simp [downloadImagesConcurrently, w0]
  · obtain ⟨new, hr, hmap, hfrom, hs, hh, ho, hn⟩ :=
      dispatch_spec items env ⟨w, 0, 0, 0, 0, []⟩ 0 0 0 0 w0.symm w0.symm w0.symm w0.symm
    simp only [List.nil_append, zero_add] at hr hs hh ho hn
    simp only [downloadImagesConcurrently, hz, if_false, hr]
    exact ⟨hmap, hfrom, hh, hs, hh, ho, hn⟩

/-! ## The counters do not depend on the order in which goroutines complete -/

theorem dispatch_eq_complete (items : List DownloadItem) :
    ∀ (env : Nat → Env) (r : Run), dispatch env items r = complete (jobs env items) r := by
  induction items with
  | nil => intro env r; rfl
  | cons item rest ih => intro env r; simp only [dispatch, jobs, complete]; exact ih _ _

theorem worker_counters (job : Env × DownloadItem) (r : Run) :
    (worker job.1 job.2 r).counters = tally r.counters job := by
  have herr := downloadSingleImage_err job.1 job.2 r.world freshWorld
  unfold tally
  rw [← herr]
  unfold worker
  rcases downloadSingleImage job.1 job.2 r.world with ⟨w, err⟩
  rcases err with _ | ⟨c, u⟩ | m <;> rfl

theorem complete_counters (l : List (Env × DownloadItem)) :
    ∀ r : Run, (complete l r).counters = l.foldl tally r.counters := by
  induction l with
  | nil => intro r; rfl
  | cons job rest ih =>
    intro r
    simp only [complete, List.foldl_cons]
    rw [ih, worker_counters]

theorem tally_comm (c : Int × Int × Int × Int) (a b : Env × DownloadItem) :
    tally (tally c a) b = tally (tally c b) a := by
  unfold tally
  rcases (downloadSingleImage a.1 a.2 freshWorld).2 with _ | ⟨ca, ua⟩ | ma <;>
    rcases (downloadSingleImage b.1 b.2 freshWorld).2 with _ | ⟨cb, ub⟩ | mb <;> rfl

/-- Whatever the order in which the goroutines of a run complete, the four
counters end with the same values. -/
theorem counters_order_independent (l1 l2 : List (Env × DownloadItem)) (h : l1.Perm l2)
    (r : Run) : (complete l1 r).counters = (complete l2 r).counters := by
  rw [complete_counters, complete_counters]
  exact h.foldl_eq' (fun x _ y _ z => tally_comm z x y) _

/-- The state returned by the engine is the state the dispatch loop ends in. -/
theorem run_eq_dispatch (env : Nat → Env) (items : List DownloadItem) (w : World) :
    (downloadImagesConcurrently env items w).2 = dispatch env items ⟨w, 0, 0, 0, 0, []⟩ := by
  unfold downloadImagesConcurrently
  simp only
  split_ifs with h
  · rw [List.length_eq_zero.mp h]; rfl
  · rfl

/-- C1: for a non-empty list of fewer than 2^31 items and any answers of the
environment, the run ends with `processedCount` equal to the number of items;
the three outcome counters are the numbers of items that succeeded, failed
with an HTTP status and failed otherwise, they add up to `processedCount`, and
each goroutine adds one to `processedCount` and to exactly one of the three
(adding one always changes a counter). The final counters are the same for
every order in which the goroutines complete. -/
theorem counters_account_for_every_item (env : Nat → Env)
    (itemsToDownload : List DownloadItem) (w : World)
    (hne : itemsToDownload ≠ []) (hlen : itemsToDownload.length < 2 ^ 31) :
    (downloadImagesConcurrently env itemsToDownload w).2.processedCount
      = (itemsToDownload.length : Nat) ∧
    (downloadImagesConcurrently env itemsToDownload w).2.successfulDownloadCount
      + (downloadImagesConcurrently env itemsToDownload w).2.httpErrorCount
      + (downloadImagesConcurrently env itemsToDownload w).2.otherErrorCount
      = (downloadImagesConcurrently env itemsToDownload w).2.processedCount ∧
    (downloadImagesConcurrently env itemsToDownload w).2.reports.map Report.item
      = itemsToDownload ∧
    (downloadImagesConcurrently env itemsToDownload w).2.successfulDownloadCount
      = ((downloadImagesConcurrently env itemsToDownload w).2.reports.countP
          Report.isSuccess : Nat) ∧
    (downloadImagesConcurrently env itemsToDownload w).2.httpErrorCount
      = ((downloadImagesConcurrently env itemsToDownload w).2.reports.countP
          Report.isHTTPFailure : Nat) ∧
    (downloadImagesConcurrently env itemsToDownload w).2.otherErrorCount
      = ((downloadImagesConcurrently env itemsToDownload w).2.reports.countP
          Report.isOtherFailure : Nat) ∧
    (∀ (e : Env) (item : DownloadItem) (r : Run),
      (worker e item r).processedCount = AddInt32 r.processedCount 1 ∧
      (((worker e item r).successfulDownloadCount = AddInt32 r.successfulDownloadCount 1 ∧
          (worker e item r).httpErrorCount = r.httpErrorCount ∧
          (worker e item r).otherErrorCount = r.otherErrorCount) ∨
        ((worker e item r).successfulDownloadCount = r.successfulDownloadCount ∧
          (worker e item r).httpErrorCount = AddInt32 r.httpErrorCount 1 ∧
          (worker e item r).otherErrorCount = r.otherErrorCount) ∨
        ((worker e item r).successfulDownloadCount = r.successfulDownloadCount ∧
          (worker e item r).httpErrorCount = r.httpErrorCount ∧
          (worker e item r).otherErrorCount = AddInt32 r.otherErrorCount 1))) ∧
    (∀ v : Int, AddInt32 v 1 ≠ v) ∧
    (∀ order : List (Env × DownloadItem), order.Perm (jobs env itemsToDownload) →
      (complete order ⟨w, 0, 0, 0, 0, []⟩).counters
        = (downloadImagesConcurrently env itemsToDownload w).2.counters) := by
  obtain ⟨hmap, -, -, hs, hh, ho, hn⟩ := run_spec env itemsToDownload w
  have hcl := countP_classes (downloadImagesConcurrently env itemsToDownload w).2.reports
  have hlen2 : (downloadImagesConcurrently env itemsToDownload w).2.reports.length
      = itemsToDownload.length := by
    have := congrArg List.length hmap
    simpa using this
  have hpos : 0 < itemsToDownload.length := List.length_pos.mpr hne
  have hl : ((itemsToDownload.length : Nat) : Int) < 2 ^ 31 := by exact_mod_cast hlen
  rw [wrapInt32_of_range _ (by omega) (by omega)] at hs hh ho
  rw [wrapInt32_of_range _ (by omega) hl] at hn
  refine ⟨hn, ?_, hmap, hs, hh, ho, ?_, AddInt32_ne, ?_⟩
  · rw [hs, hh, ho, hn]; omega
  · intro e item r
    obtain ⟨p, -, -, -, hproc, hsucc, hhttp, hother⟩ := worker_spec e item r
    refine ⟨hproc, ?_⟩
    rw [hsucc, hhttp, hother]
    rcases report_classes p with ⟨h1, h2, h3⟩ | ⟨h1, h2, h3⟩ | ⟨h1, h2, h3⟩ <;> simp [h1, h2, h3]
  · intro order hperm
    rw [run_eq_dispatch, dispatch_eq_complete]
    exact counters_order_independent _ _ hperm _

theorem counters_account_for_every_item_witness :
    scenarioItems ≠ [] ∧ scenarioItems.length < 2 ^ 31 ∧
    (downloadImagesConcurrently scenarioEnv scenarioItems freshWorld).2.processedCount = 2 ∧
    (downloadImagesConcurrently scenarioEnv scenarioItems freshWorld).2.successfulDownloadCount
      + (downloadImagesConcurrently scenarioEnv scenarioItems freshWorld).2.httpErrorCount
      + (downloadImagesConcurrently scenarioEnv scenarioItems freshWorld).2.otherErrorCount
      = (downloadImagesConcurrently scenarioEnv scenarioItems freshWorld).2.processedCount :=
  ⟨by decide, by decide,
    (counters_account_for_every_item scenarioEnv scenarioItems freshWorld
      (by decide) (by decide)).1,
    (counters_account_for_every_item scenarioEnv scenarioItems freshWorld
      (by decide) (by decide)).2.1⟩

theorem length_plainItems (n : Nat) : (plainItems n).length = n := by
  simp [plainItems]

/-- When the server answers `404` to every item, every report is an HTTP failure. -/
theorem all_http_failures (items : List DownloadItem) (w : World) :
    (downloadImagesConcurrently (fun _ => statusEnv 404) items w).2.reports.countP
      Report.isHTTPFailure = items.length := by
  obtain ⟨hmap, hfrom, -⟩ := run_spec (fun _ => statusEnv 404) items w
  have hlen := congrArg List.length hmap
  rw [List.length_map] at hlen
  rw [← hlen, List.countP_eq_length]
  intro q hq
  obtain ⟨i, w1, hi⟩ := hfrom q hq
  simp [downloadSingleImage, statusEnv, respEnv] at hi
  simp [Report.isHTTPFailure, hi]

/-- C2, as stated, fails: on 2^31 items that all get `404` the function
returns -2147483648 while 2147483648 items failed with an HTTP status. -/
theorem returned_count_wraps :
    (downloadImagesConcurrently (fun _ => statusEnv 404) (plainItems (2 ^ 31)) freshWorld).1
      = -2147483648 ∧
    (downloadImagesConcurrently (fun _ => statusEnv 404) (plainItems (2 ^ 31))
      freshWorld).2.reports.countP Report.isHTTPFailure = 2147483648 := by
  have hc := all_http_failures (plainItems (2 ^ 31)) freshWorld
  rw [length_plainItems] at hc
  obtain ⟨-, -, hret, -⟩ := run_spec (fun _ => statusEnv 404) (plainItems (2 ^ 31)) freshWorld
  refine ⟨?_, by rw [hc]; norm_num⟩
  rw [hret, hc]
  unfold wrapInt32
  norm_num

/-- C2, amended: when fewer than 2^31 items fail with an HTTP status, the
returned integer is the number of items whose outcome is a `*statusCodeError`
(one report per item, carrying the error `downloadSingleImage` returned for
it); for the empty list the function returns 0 and leaves the world, its log
of requests included, as it was. -/
theorem returns_http_failure_count (env : Nat → Env) (itemsToDownload : List DownloadItem)
    (w : World)
    (hlt : (downloadImagesConcurrently env itemsToDownload w).2.reports.countP
      Report.isHTTPFailure < 2 ^ 31) :
    (downloadImagesConcurrently env itemsToDownload w).1
      = ((downloadImagesConcurrently env itemsToDownload w).2.reports.countP
          Report.isHTTPFailure : Nat) ∧
    (downloadImagesConcurrently env itemsToDownload w).2.reports.map Report.item
      = itemsToDownload ∧
    (∀ q ∈ (downloadImagesConcurrently env itemsToDownload w).2.reports,
      ∃ i w1, q.err = (downloadSingleImage (env i) q.item w1).2) ∧
    (downloadImagesConcurrently env [] w).1 = 0 ∧
    (downloadImagesConcurrently env [] w).2.world = w := by
  obtain ⟨hmap, hfrom, hret, -⟩ := run_spec env itemsToDownload w
  refine ⟨?_, hmap, hfrom, rfl, rfl⟩
  rw [hret]
  apply wrapInt32_of_range
  · omega
  · exact_mod_cast hlt

theorem returns_http_failure_count_witness :
    (downloadImagesConcurrently scenarioEnv scenarioItems freshWorld).2.reports.countP
      Report.isHTTPFailure < 2 ^ 31 ∧
    (downloadImagesConcurrently scenarioEnv scenarioItems freshWorld).1
      = ((downloadImagesConcurrently scenarioEnv scenarioItems freshWorld).2.reports.countP
          Report.isHTTPFailure : Nat) :=
  ⟨by decide, (returns_http_failure_count scenarioEnv scenarioItems freshWorld (by decide)).1⟩

/-! ## One call of `downloadSingleImage` -/

/-- The URL built by `downloadSingleImage` is the one the specification writes. -/
theorem imageURL_eq (item : DownloadItem) :
    (if item.IsField then ImagesBaseURL ++ "_cropped" else ImagesBaseURL)
      ++ ("/" ++ Itoa item.ID ++ ".jpg") = imageURL item := by
  unfold imageURL
  cases item.IsField
  · simp [String.append_assoc]
  · simp only [if_true, String.append_assoc]
    rfl

/-- The picture files other than the destination, and all tracker files, are
left alone by `downloadSingleImage`. -/
theorem downloadSingleImage_frame (env : Env) (item : DownloadItem) (w : World) :
    (∀ p, p ≠ destination item → (downloadSingleImage env item w).1.pics p = w.pics p) ∧
    (downloadSingleImage env item w).1.trackers = w.trackers := by
  unfold downloadSingleImage destination
  simp only
  repeat' split
  all_goals first
    | exact ⟨fun _ _ => rfl, rfl⟩
    | exact ⟨fun p hp => by simp [setFile, hp], rfl⟩

/-- C3, as stated, fails: status 201 lies in 200..299, yet it is reported as
an HTTP status failure and no file is written. -/
theorem status_201_is_reported :
    (downloadSingleImage (respEnv 201 "JFIF") ⟨10, false⟩ freshWorld).2
      = some (.statusCodeError 201 "https://images.ygoprodeck.com/images/cards/10.jpg") ∧
    (downloadSingleImage (respEnv 201 "JFIF") ⟨10, false⟩ freshWorld).1.pics
      ⟨"./pics", "10.jpg"⟩ = none := by
  decide

/-- C3, amended: for every item and every response received for it,
`downloadSingleImage` reports an HTTP status failure, carrying the status code
and the URL, exactly when the status code is not 200; for status code 200 it
reports no HTTP status failure, and once the destination file is created and
the copy succeeds the file holds the whole response body and nil is returned. -/
theorem status_failure_iff_not_200 (env : Env) (item : DownloadItem) (w : World)
    (StatusCode : Int) (Body : String)
    (hmk : env.mkdirAll = true) (hreq : env.newRequest = true)
    (hdo : env.clientDo = .response StatusCode Body) :
    ((downloadSingleImage env item w).2
        = some (.statusCodeError StatusCode (imageURL item)) ↔ StatusCode ≠ 200) ∧
    (∀ c u, (downloadSingleImage env item w).2 = some (.statusCodeError c u) →
        c = StatusCode ∧ StatusCode ≠ 200) ∧
    (StatusCode = 200 → env.osCreate = true → env.ioCopy = none →
        (downloadSingleImage env item w).2 = none ∧
        (downloadSingleImage env item w).1.pics (destination item) = some Body) := by
  have hu := imageURL_eq item
  by_cases hc : StatusCode = 200
  · subst hc
    refine ⟨?_, ?_, ?_⟩
    · simp only [downloadSingleImage, hmk, hreq, hdo, if_true]
      cases env.osCreate <;> cases env.ioCopy <;> simp
    · intro c u
      simp only [downloadSingleImage, hmk, hreq, hdo, if_true]
      cases env.osCreate <;> cases env.ioCopy <;> simp
    · intro _ hcr hcp
      simp [downloadSingleImage, hmk, hreq, hdo, hcr, hcp, destination, setFile]
  · refine ⟨?_, ?_, fun h => absurd h hc⟩
    · simp [downloadSingleImage, hmk, hreq, hdo, hc, hu]
    · intro c u h
      simp [downloadSingleImage, hmk, hreq, hdo, hc] at h
      exact ⟨h.1.symm, hc⟩

theorem status_failure_iff_not_200_witness :
    (respEnv 404 "").mkdirAll = true ∧ (respEnv 404 "").newRequest = true ∧
    (respEnv 404 "").clientDo = .response 404 "" ∧
    ((downloadSingleImage (respEnv 404 "") ⟨20, false⟩ freshWorld).2
        = some (.statusCodeError 404 (imageURL ⟨20, false⟩)) ↔ (404 : Int) ≠ 200) :=
  ⟨rfl, rfl, rfl,
    (status_failure_iff_not_200 (respEnv 404 "") ⟨20, false⟩ freshWorld 404 "" rfl rfl rfl).1⟩

/-- C4: the request goes to `ImagesBaseURL + "/" + decimal(id) + ".jpg"` for a
plain item and to `ImagesBaseURL + "_cropped/" + decimal(id) + ".jpg"` for a
field item, with the original identifier; no picture file other than
`decimal(convertID(id)) + ".jpg"` in `./pics` (plain) or `./pics/field`
(field) is touched, and a served body is stored in that file; `convertID`
maps 904186 to 31533705 and leaves every other identifier unchanged. -/
theorem url_uses_original_id_and_file_uses_converted_id (env : Env) (item : DownloadItem)
    (w : World) (hmk : env.mkdirAll = true) (hreq : env.newRequest = true) :
    (downloadSingleImage env item w).1.requests
      = w.requests ++ [ImagesBaseURL ++ (if item.IsField then "_cropped/" else "/")
          ++ Itoa item.ID ++ ".jpg"] ∧
    (∀ p : FilePath,
      p ≠ ⟨if item.IsField then FieldPicsDir else PicsDir, Itoa (convertID item.ID) ++ ".jpg"⟩ →
      (downloadSingleImage env item w).1.pics p = w.pics p) ∧
    (∀ Body, env.clientDo = .response 200 Body → env.osCreate = true → env.ioCopy = none →
      (downloadSingleImage env item w).2 = none ∧
      (downloadSingleImage env item w).1.pics
        ⟨if item.IsField then FieldPicsDir else PicsDir, Itoa (convertID item.ID) ++ ".jpg"⟩
        = some Body) ∧
    ((downloadSingleImage env item w).2 = none →
      ∃ Body, env.clientDo = .response 200 Body ∧
        (downloadSingleImage env item w).1.pics
          ⟨if item.IsField then FieldPicsDir else PicsDir, Itoa (convertID item.ID) ++ ".jpg"⟩
          = some Body) ∧
    convertID 904186 = 31533705 ∧
    (∀ id : Int, id ≠ 904186 → convertID id = id) := by
  have hu := imageURL_eq item
  unfold imageURL at hu
  refine ⟨?_, (downloadSingleImage_frame env item w).1, ?_, ?_, by decide, ?_⟩
  · unfold downloadSingleImage
    simp only [hmk, hreq, if_true, hu]
    repeat' split
    all_goals rfl
  · intro Body hdo hcr hcp
    simp [downloadSingleImage, hmk, hreq, hdo, hcr, hcp, setFile]
  · unfold downloadSingleImage
    simp only [hmk, hreq, if_true]
    rcases env.clientDo with _ | _ | ⟨c, b⟩
    · simp
    · simp
    · by_cases hc : c = 200
      · subst hc
        cases env.osCreate <;> cases env.ioCopy <;> simp [setFile]
      · simp [hc]
  · intro id hid
    have hb : (id == 904186) = false := by simpa using hid
    simp [convertID, idConversionMap, List.lookup, hb]

theorem url_uses_original_id_and_file_uses_converted_id_witness :
    (okEnv "JFIF").mkdirAll = true ∧ (okEnv "JFIF").newRequest = true ∧
    (downloadSingleImage (okEnv "JFIF") ⟨904186, false⟩ freshWorld).1.requests
      = ["https://images.ygoprodeck.com/images/cards/904186.jpg"] ∧
    (downloadSingleImage (okEnv "JFIF") ⟨904186, false⟩ freshWorld).1.pics
      ⟨"./pics", "31533705.jpg"⟩ = some "JFIF" ∧
    (downloadSingleImage (okEnv "JFIF") ⟨904186, true⟩ freshWorld).1.requests
      = ["https://images.ygoprodeck.com/images/cards_cropped/904186.jpg"] ∧
    (downloadSingleImage (okEnv "JFIF") ⟨904186, true⟩ freshWorld).1.pics
      ⟨"./pics/field", "31533705.jpg"⟩ = some "JFIF" :=
  ⟨rfl, rfl,
    (url_uses_original_id_and_file_uses_converted_id (okEnv "JFIF") ⟨904186, false⟩ freshWorld
      rfl rfl).1,
    ((url_uses_original_id_and_file_uses_converted_id (okEnv "JFIF") ⟨904186, false⟩ freshWorld
      rfl rfl).2.2.1 "JFIF" rfl rfl rfl).2,
    (url_uses_original_id_and_file_uses_converted_id (okEnv "JFIF") ⟨904186, true⟩ freshWorld
      rfl rfl).1,
    ((url_uses_original_id_and_file_uses_converted_id (okEnv "JFIF") ⟨904186, true⟩ freshWorld
      rfl rfl).2.2.1 "JFIF" rfl rfl rfl).2⟩

/-- C6, as stated, fails: the copy breaks after four characters and
`os.Remove`, whose error the code discards, fails as well; the truncated file
is still there when `downloadSingleImage` returns. -/
theorem truncated_file_can_stay :
    (downloadSingleImage (copyFailEnv "JFIFDATA" 4 false) ⟨10, false⟩ freshWorld).1.pics
      ⟨"./pics", "10.jpg"⟩ = some "JFIF" ∧
    (downloadSingleImage (copyFailEnv "JFIFDATA" 4 false) ⟨10, false⟩ freshWorld).2
      = some (.wrapError "failed to write image data to 10.jpg") := by
  decide

/-- C6, amended: when the response has status 200 (the only status for which
a copy is made) and the copy to the destination file fails part-way, the
goroutine adds one to `otherErrorCount` and leaves `httpErrorCount` and
`successfulDownloadCount` alone; if `os.Remove` succeeds the destination file
does not exist after `downloadSingleImage` returns, otherwise it is left with
the characters copied so far. -/
theorem copy_failure_is_other_failure (env : Env) (item : DownloadItem) (r : Run)
    (Body : String) (n : Nat)
    (hmk : env.mkdirAll = true) (hreq : env.newRequest = true)
    (hdo : env.clientDo = .response 200 Body) (hcr : env.osCreate = true)
    (hcp : env.ioCopy = some n) :
    (env.osRemove = true →
      (downloadSingleImage env item r.world).1.pics (destination item) = none) ∧
    (env.osRemove = false →
      (downloadSingleImage env item r.world).1.pics (destination item)
        = some ⟨Body.data.take n⟩) ∧
    (worker env item r).otherErrorCount = AddInt32 r.otherErrorCount 1 ∧
    (worker env item r).httpErrorCount = r.httpErrorCount ∧
    (worker env item r).successfulDownloadCount = r.successfulDownloadCount ∧
    (worker env item r).world.trackers = r.world.trackers := by
  refine ⟨?_, ?_, ?_⟩
  · intro hrm
    simp [downloadSingleImage, hmk, hreq, hdo, hcr, hcp, hrm, destination, setFile]
  · intro hrm
    simp [downloadSingleImage, hmk, hreq, hdo, hcr, hcp, hrm, destination, setFile]
  · simp only [worker, downloadSingleImage, hmk, hreq, hdo, hcr, hcp]
    cases env.osRemove <;> simp

theorem copy_failure_is_other_failure_witness :
    (copyFailEnv "JFIFDATA" 4 true).mkdirAll = true ∧
    (copyFailEnv "JFIFDATA" 4 true).newRequest = true ∧
    (copyFailEnv "JFIFDATA" 4 true).clientDo = .response 200 "JFIFDATA" ∧
    (copyFailEnv "JFIFDATA" 4 true).osCreate = true ∧
    (copyFailEnv "JFIFDATA" 4 true).ioCopy = some 4 ∧
    (copyFailEnv "JFIFDATA" 4 true).osRemove = true ∧
    (downloadSingleImage (copyFailEnv "JFIFDATA" 4 true) ⟨10, false⟩ freshWorld).1.pics
      (destination ⟨10, false⟩) = none :=
  ⟨rfl, rfl, rfl, rfl, rfl, rfl,
    (copy_failure_is_other_failure (copyFailEnv "JFIFDATA" 4 true) ⟨10, false⟩
      ⟨freshWorld, 0, 0, 0, 0, []⟩ "JFIFDATA" 4 rfl rfl rfl rfl rfl).1 rfl⟩

/-! ## Decimal renderings -/

theorem digitChar_mem (d : Nat) (h : d < 10) : Nat.digitChar d ∈ decimalChars := by
  interval_cases d <;> decide

theorem toDigitsCore_mem (fuel : Nat) :
    ∀ (n : Nat) (acc : List Char) (c : Char),
      c ∈ Nat.toDigitsCore 10 fuel n acc → c ∈ acc ∨ c ∈ decimalChars := by
  induction fuel with
  | zero => intro n acc c h; exact Or.inl (by simpa [Nat.toDigitsCore] using h)
  | succ fuel ih =>
    intro n acc c h
    have hd : Nat.digitChar (n % 10) ∈ decimalChars := digitChar_mem _ (Nat.mod_lt _ (by norm_num))
    simp only [Nat.toDigitsCore] at h
    split_ifs at h
    · rcases List.mem_cons.mp h with rfl | h
      · exact Or.inr hd
      · exact Or.inl h
    · rcases ih _ _ _ h with h | h
      · rcases List.mem_cons.mp h with rfl | h
        · exact Or.inr hd
        · exact Or.inl h
      · exact Or.inr h

theorem toDigitsCore_ne_nil (fuel : Nat) :
    ∀ (n : Nat) (acc : List Char), acc ≠ [] → Nat.toDigitsCore 10 fuel n acc ≠ [] := by
  induction fuel with
  | zero => intro n acc h; simpa [Nat.toDigitsCore] using h
  | succ fuel ih =>
    intro n acc _
    simp only [Nat.toDigitsCore]
    split_ifs
    · simp
    · exact ih _ _ (by simp)

theorem toDigits_mem (n : Nat) (c : Char) (h : c ∈ Nat.toDigits 10 n) : c ∈ decimalChars := by
  rcases toDigitsCore_mem _ _ _ _ h with h | h
  · simp at h
  · exact h

theorem toDigits_ne_nil (n : Nat) : Nat.toDigits 10 n ≠ [] := by
  unfold Nat.toDigits
  simp only [Nat.toDigitsCore]
  split_ifs
  · simp
  · exact toDigitsCore_ne_nil _ _ _ (by simp)

theorem Itoa_data (i : Int) :
    (Itoa i).data = match i with
      | Int.ofNat m => Nat.toDigits 10 m
      | Int.negSucc m => '-' :: Nat.toDigits 10 (m + 1) := by
  cases i <;> rfl

theorem Itoa_chars (i : Int) (c : Char) (h : c ∈ (Itoa i).data) : c ∈ decimalChars := by
  rw [Itoa_data] at h
  cases i with
  | ofNat m => exact toDigits_mem m c h
  | negSucc m =>
    rcases List.mem_cons.mp h with rfl | h
    · decide
    · exact toDigits_mem _ c h

theorem Itoa_ne_nil (i : Int) : (Itoa i).data ≠ [] := by
  rw [Itoa_data]
  cases i with
  | ofNat m => exact toDigits_ne_nil m
  | negSucc m => simp

theorem Itoa_length (i : Int) (h : isGoInt i) : (Itoa i).data.length ≤ 20 := by
  rw [Itoa_data]
  obtain ⟨h1, h2⟩ := h
  cases i with
  | ofNat m =>
    have hm : m < 10 ^ 20 := by
      have : (m : Int) < 2 ^ 63 := h2
      have : m < 2 ^ 63 := by exact_mod_cast this
      omega
    exact Nat.repr_length m 20 (by norm_num) hm
  | negSucc m =>
    have hm : m + 1 < 10 ^ 19 := by
      have : -(2 : Int) ^ 63 ≤ -((m : Int) + 1) := by
        simpa [Int.negSucc_eq] using h1
      omega
    have := Nat.repr_length (m + 1) 19 (by norm_num) hm
    simp only [List.length_cons]
    have h3 : (Nat.repr (m + 1)).length = (Nat.toDigits 10 (m + 1)).length := rfl
    omega

theorem decimalChars_spec :
    ∀ c ∈ decimalChars, c ≠ '\n' ∧ c ≠ '\r' ∧ isSpace c = false ∧ c.utf8Size = 1 := by
  decide

theorem byteLen_decimal (l : List Char) (h : ∀ c ∈ l, c ∈ decimalChars) :
    byteLen l = l.length := by
  induction l with
  | nil => rfl
  | cons c l ih =>
    have hc := (decimalChars_spec c (h c (List.mem_cons_self _ _))).2.2.2
    have := ih (fun d hd => h d (List.mem_cons_of_mem _ hd))
    simp only [byteLen, List.map_cons, List.sum_cons, List.length_cons] at *
    omega

/-- The decimal rendering of a Go `int` is a line the scanner can hold. -/
theorem Itoa_fits (i : Int) (h : isGoInt i) : fitsScanner (Itoa i) := by
  constructor
  · intro hmem
    exact (decimalChars_spec _ (Itoa_chars i _ hmem)).1 rfl
  · rw [byteLen_decimal _ (Itoa_chars i)]
    have := Itoa_length i h
    unfold MaxScanTokenSize
    omega

theorem dropCR_Itoa (i : Int) : dropCR (Itoa i).data = (Itoa i).data := by
  unfold dropCR
  split_ifs with h
  · exact absurd rfl (decimalChars_spec _ (Itoa_chars i _ (List.mem_of_getLast?_eq_some h))).2.1
  · rfl

theorem TrimSpace_Itoa (i : Int) : TrimSpace (Itoa i) = Itoa i := by
  have hns : ∀ c ∈ (Itoa i).data, ¬ isSpace c = true := fun c hc => by
    simp [(decimalChars_spec c (Itoa_chars i c hc)).2.2.1]
  unfold TrimSpace
  apply String.ext
  simp only
  have h1 : (Itoa i).data.dropWhile isSpace = (Itoa i).data :=
    List.dropWhile_eq_self_iff.mpr (fun hl => hns _ (List.get_mem _ _ _))
  rw [h1]
  exact List.rdropWhile_eq_self_iff.mpr (fun hl => hns _ (List.getLast_mem hl))

theorem Itoa_ne_empty (i : Int) : Itoa i ≠ "" := by
  intro h
  exact Itoa_ne_nil i (by rw [h])

/-! ## Scanning and loading a tracker file -/

/-- Scanning one complete line. -/
theorem scanTokens_line (l : List Char) :
    ∀ (line rest : List Char), '\n' ∉ l →
      scanTokens (l ++ '\n' :: rest) line =
        if MaxScanTokenSize ≤ byteLen (line ++ l) then []
        else dropCR (line ++ l) :: scanTokens rest [] := by
  induction l with
  | nil => intro line rest _; simp [scanTokens]
  | cons c l ih =>
    intro line rest h
    have hc : c ≠ '\n' := fun e => h (by simp [e])
    have hl : '\n' ∉ l := fun e => h (List.mem_cons_of_mem _ e)
    have hstep : scanTokens ((c :: l) ++ '\n' :: rest) line
        = scanTokens (l ++ '\n' :: rest) (line ++ [c]) := by
      simp only [List.cons_append, scanTokens, hc, if_false]
      rfl
    rw [hstep, ih _ _ hl]
    simp

theorem joinLines_cons (l : String) (ls : List String) :
    (joinLines (l :: ls)).data = l.data ++ '\n' :: (joinLines ls).data := by
  simp [joinLines, String.data_append]

theorem joinLines_append (a b : List String) :
    joinLines (a ++ b) = joinLines a ++ joinLines b := by
  induction a with
  | nil => simp [joinLines]
  | cons l a ih =>
    have h : ∀ x : List String, joinLines (l :: x) = l ++ "\n" ++ joinLines x := fun _ => rfl
    rw [List.cons_append, h, h, ih, String.append_assoc, String.append_assoc,
      String.append_assoc]

theorem joinLines_singleton (l : String) : joinLines [l] = l ++ "\n" := by
  simp [joinLines]

/-- Scanning a text made of complete lines that all fit: one token per line. -/
theorem scanTokens_joinLines (ls : List String) (h : ∀ l ∈ ls, fitsScanner l) :
    scanTokens (joinLines ls).data [] = ls.map (fun l => dropCR l.data) := by
  induction ls with
  | nil => simp [joinLines, scanTokens]
  | cons l ls ih =>
    obtain ⟨hnl, hlen⟩ := h l (List.mem_cons_self _ _)
    rw [joinLines_cons, scanTokens_line _ _ _ hnl,
      ih (fun x hx => h x (List.mem_cons_of_mem _ hx))]
    simp only [List.nil_append, List.map_cons]
    rw [if_neg (by omega)]

/-- The loop of `loadSetFromFile` keeps what is in the set and adds every
non-empty trimmed token. -/
theorem mem_load_loop (toks : List String) :
    ∀ (target : IDSet) (x : String),
      (x ∈ target ∨ (x ≠ "" ∧ ∃ t ∈ toks, TrimSpace t = x)) →
      x ∈ toks.foldl
        (fun set text => if TrimSpace text ≠ "" then set.insert (TrimSpace text) else set)
        target := by
  induction toks with
  | nil =>
    intro target x h
    rcases h with h | ⟨_, t, ht, _⟩
    · simpa using h
    · simp at ht
  | cons t toks ih =>
    intro target x h
    simp only [List.foldl_cons]
    apply ih
    rcases h with h | ⟨hne, u, hu, hx⟩
    · left
      split_ifs
      · exact List.mem_insert_iff.mpr (Or.inr h)
      · exact h
    · rcases List.mem_cons.mp hu with rfl | hu
      · left
        rw [hx, if_pos hne]
        exact List.mem_insert_iff.mpr (Or.inl rfl)
      · exact Or.inr ⟨hne, u, hu, hx⟩

/-- Loading a tracker file made of complete lines that all fit finds every
decimal identifier that is one of its lines. -/
theorem mem_loadSetFromFile (loadEnv : LoadEnv) (filePath : String) (target : IDSet)
    (w : World) (ls : List String) (i : Int)
    (hfile : w.trackers filePath = some (joinLines ls)) (hfit : ∀ l ∈ ls, fitsScanner l)
    (hopen : loadEnv.osOpen = true) (hread : loadEnv.read = none) (hi : Itoa i ∈ ls) :
    Itoa i ∈ loadSetFromFile loadEnv filePath target w := by
  simp only [loadSetFromFile, hfile, hopen, hread, if_true, scanLines]
  apply mem_load_loop
  right
  refine ⟨Itoa_ne_empty i, Itoa i, ?_, TrimSpace_Itoa i⟩
  rw [scanTokens_joinLines ls hfit]
  simp only [List.map_map, List.mem_map, Function.comp]
  exact ⟨Itoa i, hi, by rw [dropCR_Itoa]⟩

/-- C8, as stated, fails: the file holds `12` without a final newline; after
`34` is appended the file reads `1234` and `34` is not in the loaded set. -/
theorem appended_id_lost_after_open_line :
    (appendIDToCacheFile (okEnv "") CardCachePath (Itoa 34) (trackerWorld "12" "")).2 = true ∧
    (appendIDToCacheFile (okEnv "") CardCachePath (Itoa 34)
      (trackerWorld "12" "")).1.trackers CardCachePath = some "1234\n" ∧
    loadSetFromFile okLoad CardCachePath []
      (appendIDToCacheFile (okEnv "") CardCachePath (Itoa 34) (trackerWorld "12" "")).1
      = ["1234"] ∧
    Itoa 34 ∉ loadSetFromFile okLoad CardCachePath []
      (appendIDToCacheFile (okEnv "") CardCachePath (Itoa 34) (trackerWorld "12" "")).1 := by
  decide

/-- C8, amended: when the tracker file is made of complete lines (it is empty
or ends with a newline) each shorter than the scanner buffer, then after
`appendIDToCacheFile` has appended the decimal string of a Go `int`
successfully, loading the file into a fresh set, with the file opened and read
to its end, yields a set of which that string is a member. -/
theorem appended_id_is_loaded (env : Env) (loadEnv : LoadEnv) (filePath : String) (id : Int)
    (lines : List String) (w : World)
    (hid : isGoInt id) (hfit : ∀ l ∈ lines, fitsScanner l)
    (hfile : w.trackers filePath = some (joinLines lines))
    (happ : (appendIDToCacheFile env filePath (Itoa id) w).2 = true)
    (hopen : loadEnv.osOpen = true) (hread : loadEnv.read = none) :
    Itoa id ∈ loadSetFromFile loadEnv filePath []
      (appendIDToCacheFile env filePath (Itoa id) w).1 := by
  have hw : (appendIDToCacheFile env filePath (Itoa id) w).1.trackers filePath
      = some (joinLines (lines ++ [Itoa id])) := by
    rw [joinLines_append, joinLines_singleton]
    unfold appendIDToCacheFile at happ ⊢
    rw [hfile] at happ ⊢
    simp only at happ ⊢
    cases ho : env.appendOpen <;> rw [ho] at happ <;> simp at happ
    cases hwr : env.appendWrite <;> rw [hwr] at happ <;> simp at happ
    simp [setFile]
  refine mem_loadSetFromFile loadEnv filePath [] _ (lines ++ [Itoa id]) id hw ?_ hopen hread
    (by simp)
  intro l hl
  rcases List.mem_append.mp hl with hl | hl
  · exact hfit l hl
  · rw [List.mem_singleton.mp hl]
    exact Itoa_fits id hid

theorem appended_id_is_loaded_witness :
    isGoInt 34 ∧ (∀ l ∈ ["12"], fitsScanner l) ∧
    (trackerWorld "12\n" "").trackers CardCachePath = some (joinLines ["12"]) ∧
    (appendIDToCacheFile (okEnv "") CardCachePath (Itoa 34) (trackerWorld "12\n" "")).2 = true ∧
    okLoad.osOpen = true ∧ okLoad.read = none ∧
    Itoa 34 ∈ loadSetFromFile okLoad CardCachePath []
      (appendIDToCacheFile (okEnv "") CardCachePath (Itoa 34) (trackerWorld "12\n" "")).1 :=
  ⟨by unfold isGoInt; norm_num, by simp [fitsScanner, byteLen, MaxScanTokenSize]; decide,
    by decide, by decide, rfl, rfl,
    appended_id_is_loaded (okEnv "") okLoad CardCachePath 34 ["12"] (trackerWorld "12\n" "")
      (by unfold isGoInt; norm_num) (by simp [fitsScanner, byteLen, MaxScanTokenSize]; decide)
      (by decide) (by decide) rfl rfl⟩

/-! ## Appends to the completion stores -/

/-- What one goroutine does to the tracker files. -/
theorem worker_trackers (env : Env) (item : DownloadItem) (r : Run) :
    ∃ p : Report,
      (worker env item r).reports = r.reports ++ [p] ∧ p.item = item ∧
      p.err = (downloadSingleImage env item r.world).2 ∧
      (p.appended = true → p.err = none) ∧
      (p.appended = true ↔
        (p.err = none ∧ (r.world.trackers (trackerOf item)).isSome = true ∧
          env.appendOpen = true ∧ env.appendWrite = none)) ∧
      (p.err ≠ none → (worker env item r).world.trackers = r.world.trackers) ∧
      (∀ path, path ≠ trackerOf item →
        (worker env item r).world.trackers path = r.world.trackers path) ∧
      (p.appended = false → p.err = none →
        (worker env item r).world.trackers (trackerOf item) = r.world.trackers (trackerOf item)
        ∨ ∃ content n, r.world.trackers (trackerOf item) = some content ∧
            (worker env item r).world.trackers (trackerOf item)
              = some (content ++ ⟨(Itoa item.ID ++ "\n").data.take n⟩)) ∧
      (p.appended = true → ∃ content, r.world.trackers (trackerOf item) = some content ∧
        (worker env item r).world.trackers (trackerOf item)
          = some (content ++ (Itoa item.ID ++ "\n"))) := by
  have hfr := (downloadSingleImage_frame env item r.world).2
  unfold worker
  rcases hd : downloadSingleImage env item r.world with ⟨w, err⟩
  rw [hd] at hfr
  simp only at hfr
  rcases err with _ | ⟨c, u⟩ | m
  · simp only [appendIDToCacheFile, hfr]
    have ht : (if item.IsField = true then FieldCachePath else CardCachePath) = trackerOf item :=
      rfl
    rw [ht]
    rcases hc : r.world.trackers (trackerOf item) with _ | content
    · refine ⟨_, rfl, rfl, rfl, ?_⟩
      simp [hfr, hc]
    · cases ho : env.appendOpen
      · refine ⟨_, rfl, rfl, rfl, ?_⟩
        simp [hfr, hc]
      · rcases hw : env.appendWrite with _ | n
        · refine ⟨_, rfl, rfl, rfl, ?_⟩
          simp [setFile, hfr, hc]
          intro path hp
          simp [hp]
        · refine ⟨_, rfl, rfl, rfl, ?_⟩
          simp [setFile, hfr, hc]
          exact ⟨fun path hp hp1 => absurd hp1 hp, Or.inr ⟨n, rfl⟩⟩
  · refine ⟨_, rfl, rfl, rfl, ?_⟩
    simp [hfr]
  · refine ⟨_, rfl, rfl, rfl, ?_⟩
    simp [hfr]

/-- C5, as stated, fails: the download of identifier 10 succeeds and is
counted as a success, the tracker file cannot be opened for appending, and
nothing is appended to either store. -/
theorem success_without_append :
    (downloadImagesConcurrently (fun _ => appendFailEnv "JFIF") [⟨10, false⟩]
      freshWorld).2.successfulDownloadCount = 1 ∧
    (downloadImagesConcurrently (fun _ => appendFailEnv "JFIF") [⟨10, false⟩]
      freshWorld).2.world.pics ⟨"./pics", "10.jpg"⟩ = some "JFIF" ∧
    (downloadImagesConcurrently (fun _ => appendFailEnv "JFIF") [⟨10, false⟩]
      freshWorld).2.world.trackers CardCachePath = some "" ∧
    (downloadImagesConcurrently (fun _ => appendFailEnv "JFIF") [⟨10, false⟩]
      freshWorld).2.world.trackers FieldCachePath = some "" := by
  decide

/-- C5, amended: in every state of a run, the goroutine of an item changes a
tracker file only if the download outcome is Success; it never changes the
tracker of the other variant; and when the outcome is Success and the append
succeeds (the tracker file exists, is opened and written) the tracker of the
item's own variant gains exactly the decimal string of the identifier and a
newline; the two trackers are different files. -/
theorem append_only_on_success_to_own_store (env : Env) (item : DownloadItem) (r : Run) :
    ((downloadSingleImage env item r.world).2 ≠ none →
      (worker env item r).world.trackers = r.world.trackers) ∧
    (∀ path, path ≠ (if item.IsField then FieldCachePath else CardCachePath) →
      (worker env item r).world.trackers path = r.world.trackers path) ∧
    (∀ content, (downloadSingleImage env item r.world).2 = none →
      r.world.trackers (if item.IsField then FieldCachePath else CardCachePath) = some content →
      env.appendOpen = true → env.appendWrite = none →
      (worker env item r).world.trackers (if item.IsField then FieldCachePath else CardCachePath)
        = some (content ++ (Itoa item.ID ++ "\n"))) ∧
    FieldCachePath ≠ CardCachePath := by
  obtain ⟨p, -, -, herr, -, hiff, hfail, hother, -, happ⟩ := worker_trackers env item r
  refine ⟨fun h => hfail (by rwa [herr]), hother, ?_, by decide⟩
  intro content hnone hc ho hw
  have hp : p.appended = true := hiff.mpr ⟨by rw [herr, hnone], by
    show (r.world.trackers (if item.IsField then FieldCachePath else CardCachePath)).isSome = true
    rw [hc]; rfl, ho, hw⟩
  obtain ⟨content1, hc1, hres⟩ := happ hp
  have hc2 : r.world.trackers (trackerOf item) = some content := hc
  rw [hc2] at hc1
  cases hc1
  exact hres

theorem append_only_on_success_to_own_store_witness :
    (downloadImagesConcurrently scenarioEnv scenarioItems freshWorld).2.processedCount = 2 ∧
    (downloadImagesConcurrently scenarioEnv scenarioItems freshWorld).2.successfulDownloadCount
      = 1 ∧
    (downloadImagesConcurrently scenarioEnv scenarioItems freshWorld).2.httpErrorCount = 1 ∧
    (downloadImagesConcurrently scenarioEnv scenarioItems freshWorld).2.otherErrorCount = 0 ∧
    (downloadImagesConcurrently scenarioEnv scenarioItems freshWorld).2.world.trackers
      CardCachePath = some "10\n" ∧
    (downloadImagesConcurrently scenarioEnv scenarioItems freshWorld).2.world.trackers
      FieldCachePath = some "" ∧
    (worker (okEnv "JFIF") ⟨10, false⟩ ⟨freshWorld, 0, 0, 0, 0, []⟩).world.trackers
      CardCachePath = some ("" ++ (Itoa 10 ++ "\n")) :=
  ⟨by decide, by decide, by decide, by decide, by decide, by decide,
    (append_only_on_success_to_own_store (okEnv "JFIF") ⟨10, false⟩
      ⟨freshWorld, 0, 0, 0, 0, []⟩).2.2.1 "" (by decide) (by decide) rfl rfl⟩

/-- The dispatch loop adds one report per item. -/
theorem dispatch_reports (items : List DownloadItem) :
    ∀ (env : Nat → Env) (r : Run),
      ∃ new : List Report,
        (dispatch env items r).reports = r.reports ++ new ∧ new.map Report.item = items := by
  induction items with
  | nil => intro env r; exact ⟨[], by simp [dispatch], rfl⟩
  | cons item rest ih =>
    intro env r
    obtain ⟨p, hrep, hitem, -⟩ := worker_spec (env 0) item r
    obtain ⟨new, hr, hmap⟩ := ih (fun i => env (i + 1)) (worker (env 0) item r)
    exact ⟨p :: new, by simp only [dispatch]; rw [hr, hrep]; simp, by simp [hitem, hmap]⟩

theorem appendedTo_cons (path : String) (p : Report) (new : List Report) :
    appendedTo path (p :: new) =
      if p.appended = true ∧ trackerOf p.item = path then Itoa p.item.ID :: appendedTo path new
      else appendedTo path new := by
  unfold appendedTo
  by_cases h : p.appended = true ∧ trackerOf p.item = path
  · rw [if_pos h, List.filter_cons_of_pos (by simpa using h), List.map_cons]
  · rw [if_neg h, List.filter_cons_of_neg (by simpa using h)]

/-- When every append of the run succeeds, a tracker made of lines ends as
those lines followed by the identifiers appended to it, in order. -/
theorem dispatch_trackers (items : List DownloadItem) :
    ∀ (env : Nat → Env) (r : Run) (path : String) (ls : List String) (new : List Report),
      r.world.trackers path = some (joinLines ls) →
      (dispatch env items r).reports = r.reports ++ new →
      (∀ q ∈ new, q.err = none → q.appended = true) →
      (dispatch env items r).world.trackers path
        = some (joinLines (ls ++ appendedTo path new)) := by
  induction items with
  | nil =>
    intro env r path ls new hfile hrep _
    have hnew : new = [] := by
      simp only [dispatch] at hrep
      exact (List.self_eq_append_right.mp hrep)
    subst hnew
    simpa [dispatch, appendedTo] using hfile
  | cons item rest ih =>
    intro env r path ls new hfile hrep hall
    obtain ⟨p, hp, hitem, -, hae, -, hfail, hother, -, happ⟩ := worker_trackers (env 0) item r
    obtain ⟨new1, hr1, -⟩ := dispatch_reports rest (fun i => env (i + 1)) (worker (env 0) item r)
    simp only [dispatch] at hrep ⊢
    have hnew : new = p :: new1 := by
      rw [hr1, hp, List.append_assoc] at hrep
      exact (List.append_cancel_left hrep).symm
    subst hnew
    have hall1 : ∀ q ∈ new1, q.err = none → q.appended = true :=
      fun q hq => hall q (List.mem_cons_of_mem _ hq)
    rw [appendedTo_cons, hitem]
    by_cases hcase : p.appended = true ∧ trackerOf item = path
    · obtain ⟨hpa, hpath⟩ := hcase
      rw [if_pos ⟨hpa, hpath⟩]
      obtain ⟨content, hc, hres⟩ := happ hpa
      rw [hpath, hfile] at hc
      cases hc
      rw [hpath] at hres
      have hfile1 : (worker (env 0) item r).world.trackers path
          = some (joinLines (ls ++ [Itoa item.ID])) := by
        rw [hres, joinLines_append, joinLines_singleton]
      have := ih (fun i => env (i + 1)) (worker (env 0) item r) path _ new1 hfile1 hr1 hall1
      rw [this]
      simp
    · rw [if_neg hcase]
      have hfile1 : (worker (env 0) item r).world.trackers path = some (joinLines ls) := by
        by_cases hpa : p.appended = true
        · have hpath : path ≠ trackerOf item := fun e => hcase ⟨hpa, e.symm⟩
          rw [hother path hpath, hfile]
        · have herr : p.err ≠ none := fun e => hpa (hall p (List.mem_cons_self _ _) e)
          rw [hfail herr, hfile]
      exact ih (fun i => env (i + 1)) (worker (env 0) item r) path ls new1 hfile1 hr1 hall1

/-! ## A second run after a first one -/

theorem mem_potentialDownloads (allCardIDs allFieldIDs : List Int) (item : DownloadItem)
    (h : item ∈ potentialDownloads allCardIDs allFieldIDs) :
    item.ID ∈ allCardIDs ++ allFieldIDs := by
  unfold potentialDownloads at h
  simp only [List.mem_append, List.mem_map, List.mem_filter] at h ⊢
  rcases h with ⟨id, ⟨hid, -⟩, rfl⟩ | ⟨id, ⟨hid, -⟩, rfl⟩
  · exact Or.inl hid
  · exact Or.inr hid

theorem mainDownload_items (cardLoad fieldLoad : LoadEnv) (env : Nat → Env)
    (allCardIDs allFieldIDs : List Int) (w : World) :
    (mainDownload cardLoad fieldLoad env allCardIDs allFieldIDs w).1
      = itemsToDownload (loadSetFromFile cardLoad CardCachePath [] w)
          (loadSetFromFile fieldLoad FieldCachePath [] w)
          (potentialDownloads allCardIDs allFieldIDs) := by
  unfold mainDownload loadCache
  simp only
  split_ifs <;> rfl

theorem mainDownload_run (cardLoad fieldLoad : LoadEnv) (env : Nat → Env)
    (allCardIDs allFieldIDs : List Int) (w : World) :
    (mainDownload cardLoad fieldLoad env allCardIDs allFieldIDs w).2
      = dispatch env (mainDownload cardLoad fieldLoad env allCardIDs allFieldIDs w).1
          ⟨w, 0, 0, 0, 0, []⟩ := by
  rw [mainDownload_items]
  unfold mainDownload loadCache downloadImagesConcurrently
  simp only
  split_ifs with h1 h2
  · omega
  · rfl
  · have : itemsToDownload (loadSetFromFile cardLoad CardCachePath [] w)
        (loadSetFromFile fieldLoad FieldCachePath [] w)
        (potentialDownloads allCardIDs allFieldIDs) = [] :=
      List.length_eq_zero.mp (by omega)
    rw [this]
    rfl

theorem mem_appendedTo (path : String) (new : List Report) (x : String) :
    x ∈ appendedTo path new ↔
      ∃ q ∈ new, q.appended = true ∧ trackerOf q.item = path ∧ Itoa q.item.ID = x := by
  unfold appendedTo
  simp only [List.mem_map, List.mem_filter, Bool.and_eq_true, decide_eq_true_eq]
  constructor
  · rintro ⟨q, ⟨hq, ha, hp⟩, hx⟩
    exact ⟨q, hq, ha, hp, hx⟩
  · rintro ⟨q, hq, ha, hp, hx⟩
    exact ⟨q, ⟨hq, ha, hp⟩, hx⟩

/-- C7, as stated, fails: the card tracker holds `7` without a final newline;
the first run downloads identifier 10 and appends it, the tracker then reads
`710`, and the filter step of the second run lists identifier 10 again. -/
theorem open_line_defeats_the_skip :
    (mainDownload okLoad okLoad (fun _ => okEnv "JFIF") [10] [] (trackerWorld "7" "")).2.reports
      = [⟨⟨10, false⟩, none, true⟩] ∧
    (mainDownload okLoad okLoad (fun _ => okEnv "JFIF") [10] []
      (trackerWorld "7" "")).2.world.trackers CardCachePath = some "710\n" ∧
    (mainDownload okLoad okLoad (fun _ => okEnv "JFIF") [10] []
      (mainDownload okLoad okLoad (fun _ => okEnv "JFIF") [10] []
        (trackerWorld "7" "")).2.world).1 = [⟨10, false⟩] := by
  decide

/-- C7, amended: when both tracker files are made of complete lines (empty or
ending with a newline) each shorter than the scanner buffer, the candidates
are Go `int`s, every append of the first run succeeds and the second run opens
both tracker files and reads them to their end, then the list of items to
download of the second run over the same candidates contains no item that
succeeded in the first run. -/
theorem second_run_skips_first_run_successes
    (cardLoad fieldLoad cardLoad2 fieldLoad2 : LoadEnv) (env env2 : Nat → Env)
    (allCardIDs allFieldIDs : List Int) (cardLines fieldLines : List String) (w : World)
    (hids : ∀ id ∈ allCardIDs ++ allFieldIDs, isGoInt id)
    (hcard : w.trackers CardCachePath = some (joinLines cardLines))
    (hfield : w.trackers FieldCachePath = some (joinLines fieldLines))
    (hfit : ∀ l ∈ cardLines ++ fieldLines, fitsScanner l)
    (happ : ∀ q ∈ (mainDownload cardLoad fieldLoad env allCardIDs allFieldIDs w).2.reports,
      q.err = none → q.appended = true)
    (hc2 : cardLoad2.osOpen = true ∧ cardLoad2.read = none)
    (hf2 : fieldLoad2.osOpen = true ∧ fieldLoad2.read = none) :
    ∀ q ∈ (mainDownload cardLoad fieldLoad env allCardIDs allFieldIDs w).2.reports,
      q.err = none →
      q.item ∉ (mainDownload cardLoad2 fieldLoad2 env2 allCardIDs allFieldIDs
        (mainDownload cardLoad fieldLoad env allCardIDs allFieldIDs w).2.world).1 := by
  intro q hq hsucc hmem
  rw [mainDownload_run] at hq happ
  obtain ⟨new, hr, hmap⟩ := dispatch_reports
    (mainDownload cardLoad fieldLoad env allCardIDs allFieldIDs w).1 env ⟨w, 0, 0, 0, 0, []⟩
  have hr0 := hr
  simp only [List.nil_append] at hr0
  rw [hr0] at hq happ
  -- the two tracker files when the first run has ended
  have hC := dispatch_trackers _ env ⟨w, 0, 0, 0, 0, []⟩ CardCachePath cardLines new hcard hr happ
  have hF := dispatch_trackers _ env ⟨w, 0, 0, 0, 0, []⟩ FieldCachePath fieldLines new hfield hr
    happ
  rw [← mainDownload_run] at hC hF
  -- every identifier of the first run is a Go int
  have hint : ∀ p ∈ new, isGoInt p.item.ID := by
    intro p hp
    have h1 : p.item ∈ (mainDownload cardLoad fieldLoad env allCardIDs allFieldIDs w).1 := by
      rw [← hmap]; exact List.mem_map_of_mem _ hp
    rw [mainDownload_items] at h1
    exact hids _ (mem_potentialDownloads _ _ _ (List.mem_filter.mp h1).1)
  have hfitNew : ∀ path, ∀ l ∈ appendedTo path new, fitsScanner l := by
    intro path l hl
    obtain ⟨p, hp, -, -, rfl⟩ := (mem_appendedTo path new l).mp hl
    exact Itoa_fits _ (hint p hp)
  have hqa : q.appended = true := happ q hq hsucc
  rw [mainDownload_items] at hmem
  have hfound := (List.mem_filter.mp hmem).2
  cases hv : q.item.IsField
  · have hin : Itoa q.item.ID ∈ loadSetFromFile cardLoad2 CardCachePath []
        (mainDownload cardLoad fieldLoad env allCardIDs allFieldIDs w).2.world := by
      refine mem_loadSetFromFile cardLoad2 CardCachePath [] _ _ q.item.ID hC ?_ hc2.1 hc2.2 ?_
      · intro l hl
        rcases List.mem_append.mp hl with hl | hl
        · exact hfit l (List.mem_append_left _ hl)
        · exact hfitNew _ l hl
      · refine List.mem_append_right _ ((mem_appendedTo _ _ _).mpr ⟨q, hq, hqa, ?_, rfl⟩)
        simp [trackerOf, hv]
    simp [hv, hin] at hfound
  · have hin : Itoa q.item.ID ∈ loadSetFromFile fieldLoad2 FieldCachePath []
        (mainDownload cardLoad fieldLoad env allCardIDs allFieldIDs w).2.world := by
      refine mem_loadSetFromFile fieldLoad2 FieldCachePath [] _ _ q.item.ID hF ?_ hf2.1 hf2.2 ?_
      · intro l hl
        rcases List.mem_append.mp hl with hl | hl
        · exact hfit l (List.mem_append_right _ hl)
        · exact hfitNew _ l hl
      · refine List.mem_append_right _ ((mem_appendedTo _ _ _).mpr ⟨q, hq, hqa, ?_, rfl⟩)
        simp [trackerOf, hv]
    simp [hv, hin] at hfound

theorem second_run_skips_first_run_successes_witness :
    (∀ id ∈ [10, 20] ++ [(5 : Int)], isGoInt id) ∧
    (trackerWorld "7\n" "").trackers CardCachePath = some (joinLines ["7"]) ∧
    (trackerWorld "7\n" "").trackers FieldCachePath = some (joinLines []) ∧
    (∀ l ∈ ["7"] ++ ([] : List String), fitsScanner l) ∧
    (∀ q ∈ (mainDownload okLoad okLoad scenarioEnv [10, 20] [5]
        (trackerWorld "7\n" "")).2.reports, q.err = none → q.appended = true) ∧
    (∀ q ∈ (mainDownload okLoad okLoad scenarioEnv [10, 20] [5]
        (trackerWorld "7\n" "")).2.reports,
      q.err = none →
      q.item ∉ (mainDownload okLoad okLoad scenarioEnv [10, 20] [5]
        (mainDownload okLoad okLoad scenarioEnv [10, 20] [5]
          (trackerWorld "7\n" "")).2.world).1) :=
  have hids : ∀ id ∈ [10, 20] ++ [(5 : Int)], isGoInt id := by
    intro id h
    simp only [List.cons_append, List.nil_append, List.mem_cons, List.mem_singleton,
      List.not_mem_nil, or_false] at h
    rcases h with rfl | rfl | rfl <;> (unfold isGoInt; norm_num)
  have hfit : ∀ l ∈ ["7"] ++ ([] : List String), fitsScanner l := by
    intro l h
    simp only [List.append_nil, List.mem_singleton] at h
    subst h
    exact ⟨by decide, by decide⟩
  ⟨hids, by decide, by decide, hfit, by decide,
    second_run_skips_first_run_successes okLoad okLoad okLoad okLoad scenarioEnv scenarioEnv
      [10, 20] [5] ["7"] [] (trackerWorld "7\n" "") hids (by decide) (by decide) hfit
      (by decide) ⟨rfl, rfl⟩ ⟨rfl, rfl⟩⟩

/-! ## Picture files at the end of a run -/

/-- The goroutine changes picture files only through `downloadSingleImage`,
and a nil error means the destination file was written. -/
theorem worker_pics (env : Env) (item : DownloadItem) (r : Run) :
    (worker env item r).world.pics = (downloadSingleImage env item r.world).1.pics ∧
    ((downloadSingleImage env item r.world).2 = none →
      ((worker env item r).world.pics (destination item)).isSome = true) := by
  have hdest : (downloadSingleImage env item r.world).2 = none →
      ((downloadSingleImage env item r.world).1.pics (destination item)).isSome = true := by
    unfold downloadSingleImage destination
    simp only
    repeat' split
    all_goals simp [setFile]
  have hpics : (worker env item r).world.pics = (downloadSingleImage env item r.world).1.pics := by
    unfold worker
    rcases downloadSingleImage env item r.world with ⟨w, err⟩
    rcases err with _ | ⟨c, u⟩ | m
    · simp only [appendIDToCacheFile]
      repeat' split
      all_goals rfl
    · rfl
    · rfl
  exact ⟨hpics, fun h => by rw [hpics]; exact hdest h⟩

/-- The dispatch loop leaves alone the picture files that are the destination of no item. -/
theorem dispatch_pics_frame (items : List DownloadItem) :
    ∀ (env : Nat → Env) (r : Run) (p : FilePath), p ∉ items.map destination →
      (dispatch env items r).world.pics p = r.world.pics p := by
  induction items with
  | nil => intro env r p _; rfl
  | cons item rest ih =>
    intro env r p hp
    simp only [List.map_cons, List.mem_cons, not_or] at hp
    simp only [dispatch]
    rw [ih _ _ p hp.2, (worker_pics (env 0) item r).1]
    exact (downloadSingleImage_frame (env 0) item r.world).1 p hp.1

/-- When no two items share a destination file, the file of every item that
succeeded is present when the loop ends. -/
theorem dispatch_files (items : List DownloadItem) :
    ∀ (env : Nat → Env) (r : Run) (new : List Report),
      (items.map destination).Nodup →
      (dispatch env items r).reports = r.reports ++ new →
      ∀ q ∈ new, q.err = none →
        ((dispatch env items r).world.pics (destination q.item)).isSome = true := by
  induction items with
  | nil =>
    intro env r new _ hrep q hq
    have hnew : new = [] := by
      simp only [dispatch] at hrep
      exact (List.self_eq_append_right.mp hrep)
    subst hnew
    simp at hq
  | cons item rest ih =>
    intro env r new hnd hrep q hq hsucc
    obtain ⟨p, hp, hitem, herr, -⟩ := worker_spec (env 0) item r
    obtain ⟨new1, hr1, -⟩ := dispatch_reports rest (fun i => env (i + 1)) (worker (env 0) item r)
    simp only [dispatch] at hrep ⊢
    have hnew : new = p :: new1 := by
      rw [hr1, hp, List.append_assoc] at hrep
      exact (List.append_cancel_left hrep).symm
    subst hnew
    simp only [List.map_cons, List.nodup_cons] at hnd
    rcases List.mem_cons.mp hq with rfl | hq1
    · rw [hitem, dispatch_pics_frame rest _ _ _ hnd.1]
      exact (worker_pics (env 0) item r).2 (by rw [← herr]; exact hsucc)
    · exact ih _ _ new1 hnd.2 hr1 q hq1 hsucc

/-- C10, as stated, fails: identifiers 904186 and 31533705 are distinct and
both are stored as `31533705.jpg`; the first download succeeds and 904186 is
appended to the card tracker, the copy of the second fails and removes the
file, so the run ends with 904186 in the store and no file for it. -/
theorem clash_removes_recorded_file :
    clashItems.Nodup ∧
    (downloadImagesConcurrently clashEnv clashItems freshWorld).2.reports.map Report.appended
      = [true, false] ∧
    (downloadImagesConcurrently clashEnv clashItems freshWorld).2.world.trackers CardCachePath
      = some "904186\n" ∧
    destination ⟨904186, false⟩ = ⟨"./pics", "31533705.jpg"⟩ ∧
    (downloadImagesConcurrently clashEnv clashItems freshWorld).2.world.pics
      ⟨"./pics", "31533705.jpg"⟩ = none := by
  decide

/-- C10, amended: for every run of the engine over items no two of which have
the same destination file (the same converted identifier and variant),
processed one item at a time in input order, every identifier the run
appended to a completion store belongs to an item whose download succeeded,
and the destination file of every such item is present when the run ends. -/
theorem recorded_items_have_their_file (env : Nat → Env) (itemsToDownload : List DownloadItem)
    (w : World) (hdistinct : (itemsToDownload.map destination).Nodup) :
    ∀ q ∈ (downloadImagesConcurrently env itemsToDownload w).2.reports,
      (q.appended = true → q.err = none) ∧
      (q.err = none →
        ((downloadImagesConcurrently env itemsToDownload w).2.world.pics
          ⟨if q.item.IsField then FieldPicsDir else PicsDir,
            Itoa (convertID q.item.ID) ++ ".jpg"⟩).isSome = true) := by
  intro q hq
  rw [run_eq_dispatch] at hq ⊢
  obtain ⟨new, hr, -⟩ := dispatch_reports itemsToDownload env ⟨w, 0, 0, 0, 0, []⟩
  have hq1 : q ∈ new := by
    rw [hr] at hq
    simpa using hq
  constructor
  · intro ha
    have key : ∀ (items : List DownloadItem) (e : Nat → Env) (r : Run),
        (∀ p ∈ r.reports, p.appended = true → p.err = none) →
        ∀ p ∈ (dispatch e items r).reports, p.appended = true → p.err = none := by
      intro items
      induction items with
      | nil => intro e r h; simpa [dispatch] using h
      | cons item rest ih =>
        intro e r h
        simp only [dispatch]
        apply ih
        obtain ⟨p, hp, -, -, hae, -⟩ := worker_trackers (e 0) item r
        rw [hp]
        intro p1 hp1
        rcases List.mem_append.mp hp1 with h1 | h1
        · exact h p1 h1
        · rw [List.mem_singleton.mp h1]; exact hae
    exact key itemsToDownload env ⟨w, 0, 0, 0, 0, []⟩ (by simp) q hq ha
  · intro hsucc
    exact dispatch_files itemsToDownload env ⟨w, 0, 0, 0, 0, []⟩ new hdistinct hr q hq1 hsucc

theorem recorded_items_have_their_file_witness :
    (scenarioItems.map destination).Nodup ∧
    (∀ q ∈ (downloadImagesConcurrently scenarioEnv scenarioItems freshWorld).2.reports,
      (q.appended = true → q.err = none) ∧
      (q.err = none →
        ((downloadImagesConcurrently scenarioEnv scenarioItems freshWorld).2.world.pics
          ⟨if q.item.IsField then FieldPicsDir else PicsDir,
            Itoa (convertID q.item.ID) ++ ".jpg"⟩).isSome = true)) :=
  ⟨by decide, recorded_items_have_their_file scenarioEnv scenarioItems freshWorld (by decide)⟩

/-! ## The admission gate -/

theorem Gate.start_balanced (total : Nat) : (Gate.start total).balanced := by
  simp [Gate.balanced, Gate.start]

theorem Gate.step_balanced (g g1 : Gate) (e : GateStep) (hb : g.balanced)
    (hs : g.step e = some g1) : g1.balanced := by
  obtain ⟨heq, hle⟩ := hb
  cases e with
  | acquire =>
    simp only [Gate.step] at hs
    split_ifs at hs with h
    obtain ⟨-, hh, ht⟩ := h
    cases hs
    simp only [Gate.balanced, hh, if_true] at heq ⊢
    simp only [Bool.false_eq_true, if_false] at heq
    omega
  | spawn =>
    simp only [Gate.step] at hs
    split_ifs at hs with h
    cases hs
    simp only [Gate.balanced, h, if_true, List.length_cons] at heq ⊢
    simp only [Bool.false_eq_true, if_false]
    omega
  | fetchDone i =>
    simp only [Gate.step] at hs
    split_ifs at hs with h
    cases hs
    have hl := List.length_erase_of_mem h
    have hpos : 0 < g.inFlight.length := List.length_pos_of_mem h
    simp only [Gate.balanced, List.length_cons] at heq ⊢
    omega
  | release i =>
    simp only [Gate.step] at hs
    split_ifs at hs with h
    obtain ⟨hm, ht⟩ := h
    cases hs
    have hl := List.length_erase_of_mem hm
    have hpos : 0 < g.finishing.length := List.length_pos_of_mem hm
    simp only [Gate.balanced] at heq ⊢
    omega

theorem Gate.exec_balanced (steps : List GateStep) :
    ∀ (g g1 : Gate), g.balanced → g.exec steps = some g1 → g1.balanced := by
  induction steps with
  | nil =>
    intro g g1 hb h
    simp only [Gate.exec, Option.some.injEq] at h
    rw [← h]; exact hb
  | cons e es ih =>
    intro g g1 hb h
    simp only [Gate.exec] at h
    rcases hst : g.step e with _ | g2
    · rw [hst] at h; simp at h
    · rw [hst] at h
      exact ih g2 g1 (Gate.step_balanced g g2 e hb hst) h

/-- C9: in every state the dispatch loop and its goroutines can reach, for an
input of any length, at most `DownloadConcurrency` = 100 calls of
`downloadSingleImage` are in flight: every goroutine started and not yet
released holds one value of the channel, taken before it was started and given
back after its call returned, and the channel never holds more than 100;
when it holds 100 the send of the loop is not enabled. -/
theorem in_flight_never_exceeds_concurrency (total : Nat) (steps : List GateStep) (g : Gate)
    (h : (Gate.start total).exec steps = some g) :
    g.inFlight.length ≤ DownloadConcurrency ∧ DownloadConcurrency = 100 ∧
    g.inFlight.length + g.finishing.length + (if g.holding = true then 1 else 0) = g.tokens ∧
    g.tokens ≤ DownloadConcurrency ∧
    (g.tokens = DownloadConcurrency → g.step .acquire = none) := by
  obtain ⟨heq, hle⟩ := Gate.exec_balanced steps _ g (Gate.start_balanced total) h
  refine ⟨by omega, rfl, heq, hle, ?_⟩
  intro hfull
  simp only [Gate.step]
  rw [if_neg]
  omega

theorem in_flight_never_exceeds_concurrency_witness :
    (Gate.start 3).exec sampleSteps = some ⟨3, 3, 2, false, [2, 1], []⟩ ∧
    ([2, 1] : List Nat).length ≤ DownloadConcurrency :=
  ⟨by decide,
    (in_flight_never_exceeds_concurrency 3 sampleSteps ⟨3, 3, 2, false, [2, 1], []⟩
      (by decide)).1⟩

end GoHD
